import Mathlib

/-!
# GOIC: run controller, job feeder and worker of the load generator

A shallow embedding of `src/main.go` (the functions `startStressTest`, `worker`,
`handleStart`, `handleStop`, `handleStatus`) together with the properties of the
run controller that the specification states.

Modelling conventions

* Go `int` is a mathematical integer kept inside the 64-bit range by `wrapInt`.
* The package-level variables `isProcessRunning`, `cancelFunc`, `currentStats`
  and `currentConfig` are fields of `System`.  Every locked region of the source
  is one atomic transition.
* A `context.Context` is identified by a number; `System.cancelled` lists the
  contexts whose cancel function has been invoked.
* A goroutine started by `go startStressTest(ctx, req)` sits in `System.spawned`
  until it reaches the locked prologue of `startStressTest`; the local variables
  of the activation that passed the prologue are kept in `System.run`.
* The `select` statements are resolved by the environment: the case that fires
  is an input (`Event` for the result loop, `SelectCase` for the feeder). For
  the feeder this includes the send taken on `jobs` after the closing goroutine
  has closed it, which makes the Go runtime abort with a run-time error.
-/

namespace GOIC

/-! ## Machine integers -/

/-- Largest value of a Go `int` (64 bit). -/
def maxInt : Int := 9223372036854775807

/-- Smallest value of a Go `int` (64 bit). -/
def minInt : Int := -9223372036854775808

/-- Two-complement wrap-around of an integer into the range of a Go `int`. -/
def wrapInt (x : Int) : Int :=
  (x + 9223372036854775808) % 18446744073709551616 - 9223372036854775808

/-- Go `x++` on an `int`. -/
def goInc (x : Int) : Int := wrapInt (x + 1)

/-- Go `x + y` on two `int`s. -/
def goAdd (x y : Int) : Int := wrapInt (x + y)

/-! ## Data model -/

/-- The struct `CurlRequest`: the configuration of one run. -/
structure CurlRequest where
  URL : String
  Method : String
  UserAgent : String
  Threads : Int
  Requests : Int
  Delay : Int
  Timeout : Int
deriving DecidableEq, Repr

/-- The zero value `CurlRequest{}`. -/
def CurlRequest.zero : CurlRequest := ⟨"", "", "", 0, 0, 0, 0⟩

/-- The dynamic value of `Stats.Total` (an `interface{}`): `nil` before the first
run, the infinity string for an unbounded run, or the request count. -/
inductive TotalValue where
  | unset
  | infinity
  | count (n : Int)
deriving DecidableEq, Repr

/-- The struct `Stats`. -/
structure Stats where
  Total : TotalValue
  Sent : Int
  Success : Int
  Failed : Int
deriving DecidableEq, Repr

/-- Local variables of the activation of `startStressTest` that passed the
locked prologue: its context, its config, the loop counter `requestsProcessed`,
and whether the result loop has executed `return` (the deferred function is
then the only thing left to run). -/
structure Run where
  ctx : Nat
  config : CurlRequest
  requestsProcessed : Int
  returned : Bool
deriving DecidableEq, Repr

/-- The global variables of the process and the goroutines of the controller. -/
structure System where
  isProcessRunning : Bool
  cancelFunc : Option Nat
  currentStats : Stats
  currentConfig : CurlRequest
  cancelled : List Nat
  nextCtx : Nat
  spawned : List (Nat × CurlRequest)
  run : Option Run
deriving DecidableEq, Repr

/-- The state at process start: all globals hold their zero value. -/
def System.initial : System :=
  { isProcessRunning := false
    cancelFunc := none
    currentStats := ⟨TotalValue.unset, 0, 0, 0⟩
    currentConfig := CurlRequest.zero
    cancelled := []
    nextCtx := 0
    spawned := []
    run := none }

/-- What an HTTP handler answers: 200, 400, 409 (a run is in progress) or
404 (no run in progress). -/
inductive Response where
  | ok
  | badRequest
  | conflict
  | notFound
deriving DecidableEq, Repr

/-- The case of the `select` in the result loop that fires: a value received
from `results`, `results` found closed, the ticker, or `ctx.Done()`. -/
inductive Event where
  | result (success : Bool)
  | closed
  | tick
  | ctxDone
deriving DecidableEq, Repr

/-- The case of the `select` in the feeder goroutine that fires: the send
`jobs <- true` received by a worker, the receive from `ctx.Done()`, or the send
taken while `jobs` is closed. The last two can fire only after the context is
cancelled: `ctx.Done()` is closed by the cancel function, and `jobs` is closed
by the goroutine that first waits for `ctx.Done()`. -/
inductive SelectCase where
  | jobSent
  | ctxDone
  | sendOnClosed
deriving DecidableEq, Repr

/-- How the feeder goroutine stands: it has returned, it is still inside its
loop, or it has aborted the process by sending on the closed channel `jobs`. -/
inductive FeederEnd where
  | returned
  | looping
  | aborted
deriving DecidableEq, Repr

/-- How a call of `startStressTest` ends on a given finite list of events:
refused at the prologue, still inside the result loop, or returned with the
deferred function executed. -/
inductive RunOutcome where
  | rejected
  | looping
  | terminated
deriving DecidableEq, Repr

/-! ## Cancellation -/

/-- Invoking the cancel function of context `c`. Invoking it again changes nothing. -/
def cancelCtx (c : Nat) (s : System) : System :=
  { s with cancelled := List.insert c s.cancelled }

/-- The statement `if cancelFunc != nil { cancelFunc() }`. -/
def invokeCancelFunc (s : System) : System :=
  match s.cancelFunc with
  | none => s
  | some c => cancelCtx c s

/-! ## Handlers -/

/-- The handler `handleStart`. `body` is the decoded request body (`none` when
decoding fails). The running flag is read under the lock; when it is clear the
handler creates a fresh context, stores its cancel function in `cancelFunc` and
starts the goroutine `startStressTest(ctx, req)`. -/
def handleStart (body : Option CurlRequest) (s : System) : Response × System :=
  match body with
  | none => (Response.badRequest, s)
  | some req =>
    if s.isProcessRunning then (Response.conflict, s)
    else
      (Response.ok,
        { s with
          cancelFunc := some s.nextCtx
          nextCtx := s.nextCtx + 1
          spawned := s.spawned ++ [(s.nextCtx, req)] })

/-- The handler `handleStop`. -/
def handleStop (s : System) : Response × System :=
  if !s.isProcessRunning then (Response.notFound, s)
  else (Response.ok, invokeCancelFunc s)

/-- The handler `handleStatus`: the value reported as `running`. -/
def handleStatus (s : System) : Bool := s.isProcessRunning

/-! ## The run: `startStressTest` -/

/-- The counters written by the prologue of `startStressTest`. -/
def initialStats (config : CurlRequest) : Stats :=
  if config.Requests = 0 then ⟨TotalValue.infinity, 0, 0, 0⟩
  else ⟨TotalValue.count config.Requests, 0, 0, 0⟩

/-- The locked prologue of `startStressTest`: refuses (`none`) when a run is in
progress, otherwise sets the flag, stores the config and initialises the
counters; `requestsProcessed` starts at 0. -/
def startStressTestEntry (ctx : Nat) (config : CurlRequest) (s : System) : Option System :=
  if s.isProcessRunning then none
  else
    some { s with
      isProcessRunning := true
      currentConfig := config
      currentStats := initialStats config
      run := some ⟨ctx, config, 0, false⟩ }

/-- Whether a case of the result loop's `select` can fire: `results` is closed
only after the context of the run is done. -/
def eventReady (r : Run) (s : System) : Event → Bool
  | Event.result _ => true
  | Event.tick => true
  | Event.closed => decide (r.ctx ∈ s.cancelled)
  | Event.ctxDone => decide (r.ctx ∈ s.cancelled)

/-- The counter update of the result loop for one received result. -/
def countResult (success : Bool) (st : Stats) : Stats :=
  let st1 := { st with Sent := goInc st.Sent }
  if success then { st1 with Success := goInc st1.Success }
  else { st1 with Failed := goInc st1.Failed }

/-- One iteration of the result loop of `startStressTest` for the activation `r`. -/
def loopBody (r : Run) (e : Event) (s : System) : System :=
  match e with
  | Event.result success =>
    let requestsProcessed := goInc r.requestsProcessed
    let s1 := { s with currentStats := countResult success s.currentStats }
    if 0 < r.config.Requests ∧ r.config.Requests ≤ requestsProcessed then
      { invokeCancelFunc s1 with
        run := some { r with requestsProcessed := requestsProcessed, returned := true } }
    else
      { s1 with run := some { r with requestsProcessed := requestsProcessed } }
  | Event.closed => { s with run := some { r with returned := true } }
  | Event.tick => s
  | Event.ctxDone => s

/-- The deferred function of `startStressTest`. -/
def deferredCleanup (s : System) : System :=
  { s with isProcessRunning := false, currentConfig := CurlRequest.zero, run := none }

/-- The result loop on a finite list of events: runs `loopBody` on every event
whose case can fire until the loop returns. -/
def resultLoop : List Event → System → System
  | [], s => s
  | e :: es, s =>
    match s.run with
    | none => s
    | some r =>
      if r.returned then s
      else if eventReady r s e then resultLoop es (loopBody r e s)
      else resultLoop es s

/-- A whole call `startStressTest(ctx, config)` against the events `events`:
prologue, result loop, and the deferred function once the loop has returned. -/
def startStressTest (ctx : Nat) (config : CurlRequest) (events : List Event)
    (s : System) : RunOutcome × System :=
  match startStressTestEntry ctx config s with
  | none => (RunOutcome.rejected, s)
  | some s1 =>
    let s2 := resultLoop events s1
    match s2.run with
    | some r => if r.returned then (RunOutcome.terminated, deferredCleanup s2)
                else (RunOutcome.looping, s2)
    | none => (RunOutcome.looping, s2)

/-! ## The feeder goroutine -/

/-- The bounded branch of the feeder, `for j := 0; j < Requests; j++`, with
`remaining` iterations left; `sel j` is the case that fires in iteration `j`.
The value is the number of job signals sent and how the goroutine ends: it
returns when the loop condition fails or the `ctx.Done()` case fires, and it
aborts when the send is taken on the closed channel. -/
def feederLoop (sel : Nat → SelectCase) : Nat → Nat → Nat × FeederEnd
  | 0, _ => (0, FeederEnd.returned)
  | remaining + 1, j =>
    match sel j with
    | SelectCase.jobSent =>
      let rest := feederLoop sel remaining (j + 1)
      (rest.1 + 1, rest.2)
    | SelectCase.ctxDone => (0, FeederEnd.returned)
    | SelectCase.sendOnClosed => (0, FeederEnd.aborted)

/-- The unbounded branch of the feeder, `for { select ... }`, observed for
`fuel` iterations: the number of job signals sent and how the goroutine stands
(still looping when the observation ends inside the loop). -/
def feederForever (sel : Nat → SelectCase) : Nat → Nat → Nat × FeederEnd
  | 0, _ => (0, FeederEnd.looping)
  | fuel + 1, j =>
    match sel j with
    | SelectCase.ctxDone => (0, FeederEnd.returned)
    | SelectCase.sendOnClosed => (0, FeederEnd.aborted)
    | SelectCase.jobSent =>
      let rest := feederForever sel fuel (j + 1)
      (rest.1 + 1, rest.2)

/-- The feeder goroutine of `startStressTest`: the number of job signals sent
and how the goroutine stands. The bounded branch runs to its end; the
unbounded one is observed for `fuel` iterations. -/
def feeder (config : CurlRequest) (sel : Nat → SelectCase) (fuel : Nat) : Nat × FeederEnd :=
  if config.Requests = 0 then feederForever sel fuel 0
  else feederLoop sel config.Requests.toNat 0

/-! ## The worker -/

/-- What one iteration of the loop of `worker` does: the value pushed on
`results` (if any), whether the worker returns, and whether the diagnostic
line is logged. -/
structure Attempt where
  pushed : Option Bool
  exits : Bool
  logged : Bool
deriving DecidableEq, Repr

/-- One iteration of `for range jobs` in `worker`: `probeErr` says whether
`cmd.CombinedOutput()` returned an error, `ctxErr` whether `ctx.Err() != nil`,
and `failed` is `currentStats.Failed` as read under the lock. -/
def workerAttempt (probeErr ctxErr : Bool) (failed : Int) : Attempt :=
  if probeErr then
    if ctxErr then ⟨none, true, false⟩
    else ⟨some false, false, decide (Int.tmod failed 10 = 0)⟩
  else ⟨some true, false, false⟩

/-- The loop of `worker` over the jobs it receives, one pair
`(probeErr, ctxErr)` per job: the results it pushes, in order. -/
def worker (failed : Int) : List (Bool × Bool) → List Bool
  | [] => []
  | (probeErr, ctxErr) :: rest =>
    let a := workerAttempt probeErr ctxErr failed
    if a.exits then a.pushed.toList
    else a.pushed.toList ++ worker failed rest

/-- The events the result loop receives from one attempt of a worker. -/
def attemptEvents (a : Attempt) : List Event :=
  match a.pushed with
  | none => []
  | some success => [Event.result success]

/-! ## The controller as a transition system -/

/-- The atomic actions of the controller. -/
inductive Action where
  | start (body : Option CurlRequest)
  | enter (i : Nat)
  | select (e : Event)
  | cleanup
  | stop
deriving DecidableEq, Repr

/-- One action: a call of `handleStart`, the `i`-th started goroutine reaching
the prologue of `startStressTest`, one iteration of the result loop of the
active run, the deferred function of a run whose loop returned, or a call of
`handleStop`. An action that cannot happen leaves the state as it is. -/
def step (s : System) : Action → System
  | Action.start body => (handleStart body s).2
  | Action.enter i =>
    match s.spawned.get? i with
    | none => s
    | some (ctx, config) =>
      let s1 := { s with spawned := s.spawned.eraseIdx i }
      match startStressTestEntry ctx config s1 with
      | none => s1
      | some s2 => s2
  | Action.select e =>
    match s.run with
    | none => s
    | some r =>
      if r.returned then s
      else if eventReady r s e then loopBody r e s
      else s
  | Action.cleanup =>
    match s.run with
    | none => s
    | some r => if r.returned then deferredCleanup s else s
  | Action.stop => (handleStop s).2

/-- Running a list of actions. -/
def exec (s : System) (acts : List Action) : System := acts.foldl step s

/-- An action whose config, if any, holds a request count that fits a Go `int`
(the JSON decoder refuses any other number). -/
def Action.WF : Action → Bool
  | Action.start (some req) => decide (minInt ≤ req.Requests ∧ req.Requests ≤ maxInt)
  | _ => true

/-- The values received from `results` in a list of events, in order. -/
def outcomes (events : List Event) : List Bool :=
  events.filterMap fun e =>
    match e with
    | Event.result b => some b
    | _ => none

/-! ## Scenarios -/

/-- Scenario A of the specification: ten requests on three workers. -/
def scenarioA : CurlRequest := ⟨"http://x", "GET", "", 3, 10, 0, 5⟩

/-- Scenario D of the specification: nine requests. -/
def scenarioD : CurlRequest := ⟨"http://x", "GET", "", 3, 9, 0, 5⟩

/-- Scenario B of the specification: an unbounded run on two workers. -/
def scenarioB : CurlRequest := ⟨"http://x", "GET", "", 2, 0, 0, 5⟩

/-- A config that breaks every validation rule of the specification: no
worker, negative timeout, empty URL and method. -/
def invalidConfig : CurlRequest := ⟨"", "", "", 0, 5, 0, -1⟩

/-- The state after `handleStart` accepted `config` from the initial state and
its goroutine passed the prologue of `startStressTest`. -/
def runningState (config : CurlRequest) : System :=
  exec System.initial [Action.start (some config), Action.enter 0]

/-! ## Invariants of the counters -/

/-- The counters are non-negative, add up exactly, and their sum is at most `n`. -/
def CountersExact (n : Int) (st : Stats) : Prop :=
  0 ≤ st.Success ∧ 0 ≤ st.Failed ∧ st.Success + st.Failed ≤ n ∧
    st.Sent = st.Success + st.Failed

/-- Invariant of the budget. For the active run: `Total` is what its prologue
wrote, its budget fits a Go `int`, and when the budget is positive the loop
counter equals `Sent` and is below the budget until the loop returns. Whenever
`Total` is a positive count, `Sent` lies between 0 and it. The budgets of the
goroutines not yet started fit a Go `int`. -/
def BudgetInv (s : System) : Prop :=
  (∀ r, s.run = some r →
    s.currentStats.Total = (initialStats r.config).Total ∧
    r.config.Requests ≤ maxInt ∧
    (0 < r.config.Requests →
      s.currentStats.Sent = r.requestsProcessed ∧
      (r.returned = false → s.currentStats.Sent < r.config.Requests))) ∧
  (∀ R, s.currentStats.Total = TotalValue.count R → 0 < R →
    0 ≤ s.currentStats.Sent ∧ s.currentStats.Sent ≤ R ∧ R ≤ maxInt) ∧
  (∀ p ∈ s.spawned, p.2.Requests ≤ maxInt)

/-- A bounded run of two requests. -/
def scenarioTwo : CurlRequest := ⟨"http://x", "GET", "", 1, 2, 0, 5⟩

/-- The probes of scenario D as the workers see them: every third probe
returns an error, and the context is not cancelled. -/
def scenarioDProbes : List (Bool × Bool) :=
  [(false, false), (false, false), (true, false),
   (false, false), (false, false), (true, false),
   (false, false), (false, false), (true, false)]

/-- The events of scenario D: the results a worker pushes for its probes,
with a tick of the ticker in between. -/
def scenarioDEvents : List Event :=
  Event.tick :: (worker 0 scenarioDProbes).map Event.result

/-- A bounded run of two requests that receives a third result and a second
Start while it is in progress. -/
def scenarioTwoActions : List Action :=
  [Action.start (some scenarioTwo), Action.enter 0, Action.select (Event.result true),
   Action.start (some scenarioA), Action.select (Event.result false),
   Action.select (Event.result true)]

/-- Two calls of `handleStart` before the goroutine of the first one reaches
the prologue of `startStressTest`, then both goroutines reach it in turn. -/
def raceActions : List Action :=
  [Action.start (some scenarioB), Action.start (some scenarioA),
   Action.enter 0, Action.enter 0]

/-- An unbounded run is in progress in `s`: the running flag is set, the
activation of context `ctx` with config `config` is inside its result loop,
`Total` is the infinity marker, and the contexts in `cancelled` are the only
ones cancelled. -/
def UnboundedRunning (ctx : Nat) (config : CurlRequest) (cancelled : List Nat)
    (s : System) : Prop :=
  s.isProcessRunning = true ∧
  s.cancelled = cancelled ∧
  (∃ r, s.run = some r ∧ r.ctx = ctx ∧ r.config = config ∧ r.returned = false) ∧
  s.currentStats.Total = TotalValue.infinity

/-! ## Machine integers: lemmas -/

theorem wrapInt_eq_self {x : Int} (h1 : minInt ≤ x) (h2 : x ≤ maxInt) : wrapInt x = x := by
  unfold wrapInt
  unfold minInt at h1
  unfold maxInt at h2
  omega

theorem goInc_eq {x : Int} (h1 : 0 ≤ x) (h2 : x < maxInt) : goInc x = x + 1 := by
  unfold goInc wrapInt
  unfold maxInt at h2
  omega

theorem goInc_goAdd_left (a b : Int) : goInc (goAdd a b) = goAdd (goInc a) b := by
  unfold goInc goAdd wrapInt
  omega

theorem goInc_goAdd_right (a b : Int) : goInc (goAdd a b) = goAdd a (goInc b) := by
  unfold goInc goAdd wrapInt
  omega

/-! ## Cancellation: lemmas -/

theorem invokeCancelFunc_isProcessRunning (s : System) :
    (invokeCancelFunc s).isProcessRunning = s.isProcessRunning := by
  unfold invokeCancelFunc cancelCtx
  split <;> rfl

theorem invokeCancelFunc_currentStats (s : System) :
    (invokeCancelFunc s).currentStats = s.currentStats := by
  unfold invokeCancelFunc cancelCtx
  split <;> rfl

theorem invokeCancelFunc_currentConfig (s : System) :
    (invokeCancelFunc s).currentConfig = s.currentConfig := by
  unfold invokeCancelFunc cancelCtx
  split <;> rfl

theorem invokeCancelFunc_run (s : System) :
    (invokeCancelFunc s).run = s.run := by
  unfold invokeCancelFunc cancelCtx
  split <;> rfl

theorem invokeCancelFunc_spawned (s : System) :
    (invokeCancelFunc s).spawned = s.spawned := by
  unfold invokeCancelFunc cancelCtx
  split <;> rfl

/-! ## The result loop: lemmas -/

theorem countResult_exact (success : Bool) (T : TotalValue) (a b : Int)
    (ha : 0 ≤ a) (hb : 0 ≤ b) (hlt : a + b < maxInt) :
    countResult success ⟨T, a + b, a, b⟩ =
      ⟨T, a + b + 1, a + (if success then 1 else 0), b + (if success then 0 else 1)⟩ := by
  have h1 : goInc (a + b) = a + b + 1 := goInc_eq (by omega) hlt
  have h2 : goInc a = a + 1 := goInc_eq ha (by omega)
  have h3 : goInc b = b + 1 := goInc_eq hb (by omega)
  cases success <;> simp [countResult, h1, h2, h3]

theorem resultLoop_of_returned (events : List Event) (s : System) (r : Run)
    (h : s.run = some r) (hr : r.returned = true) : resultLoop events s = s := by
  cases events <;> simp [resultLoop, h, hr]

theorem outcomes_result (b : Bool) (es : List Event) :
    outcomes (Event.result b :: es) = b :: outcomes es := by
  simp [outcomes]

theorem outcomes_closed (es : List Event) : outcomes (Event.closed :: es) = outcomes es := by
  simp [outcomes]

theorem outcomes_tick (es : List Event) : outcomes (Event.tick :: es) = outcomes es := by
  simp [outcomes]

theorem outcomes_ctxDone (es : List Event) : outcomes (Event.ctxDone :: es) = outcomes es := by
  simp [outcomes]

theorem resultLoop_budget (events : List Event) :
    ∀ (n : Nat) (s : System) (r : Run) (a b : Int),
      s.run = some r → r.returned = false → r.ctx ∉ s.cancelled →
      0 ≤ a → 0 ≤ b →
      s.currentStats.Sent = a + b → s.currentStats.Success = a → s.currentStats.Failed = b →
      r.requestsProcessed = a + b →
      r.config.Requests = a + b + (n + 1) → r.config.Requests ≤ maxInt →
      n + 1 ≤ (outcomes events).length →
      (resultLoop events s).run =
          some { r with requestsProcessed := r.config.Requests, returned := true } ∧
      (resultLoop events s).isProcessRunning = s.isProcessRunning ∧
      (resultLoop events s).currentStats =
        ⟨s.currentStats.Total, r.config.Requests,
         a + (((outcomes events).take (n + 1)).count true : Nat),
         b + (((outcomes events).take (n + 1)).count false : Nat)⟩ := by
  induction events with
  | nil =>
    intro n s r a b _ _ _ _ _ _ _ _ _ _ _ hlen
    simp [outcomes] at hlen
  | cons e es ih =>
    intro n s r a b hrun hret hctx ha hb hS hA hB hp hR hmax hlen
    cases e with
    | result success =>
      have hst : s.currentStats = ⟨s.currentStats.Total, a + b, a, b⟩ := by
        rw [← hS, ← hA, ← hB]
      have hlt : a + b < maxInt := by omega
      have hcount := countResult_exact success s.currentStats.Total a b ha hb hlt
      rw [← hst] at hcount
      have hinc : goInc r.requestsProcessed = a + b + 1 := by
        rw [hp]; exact goInc_eq (by omega) hlt
      rw [outcomes_result] at hlen ⊢
      cases n with
      | zero =>
        have hcond : 0 < r.config.Requests ∧ r.config.Requests ≤ a + b + 1 := by
          constructor <;> omega
        have hbody : loopBody r (Event.result success) s =
            { invokeCancelFunc { s with currentStats := countResult success s.currentStats } with
              run := some { r with requestsProcessed := a + b + 1, returned := true } } := by
          simp only [loopBody, hinc, hcond, and_self, if_true]
        have hloop : resultLoop (Event.result success :: es) s =
            loopBody r (Event.result success) s := by
          simp only [resultLoop, hrun, hret, eventReady, if_true, Bool.false_eq_true, if_false]
          rw [hbody]
          exact resultLoop_of_returned es _ _ rfl rfl
        rw [hloop, hbody]
        refine ⟨?_, ?_, ?_⟩
        · simp [hR]
        · simp [invokeCancelFunc_isProcessRunning]
        · simp only [invokeCancelFunc_currentStats, hcount]
          cases success <;> simp [hR]
      | succ k =>
        have hcond : ¬ (0 < r.config.Requests ∧ r.config.Requests ≤ a + b + 1) := by
          push_cast at hR
          omega
        have hbody : loopBody r (Event.result success) s =
            { s with
              currentStats := countResult success s.currentStats
              run := some { r with requestsProcessed := a + b + 1 } } := by
          simp only [loopBody, hinc, hcond, if_false]
        have hloop : resultLoop (Event.result success :: es) s =
            resultLoop es (loopBody r (Event.result success) s) := by
          simp only [resultLoop, hrun, hret, eventReady, if_true, Bool.false_eq_true, if_false]
        rw [hloop, hbody]
        have hlen2 : k + 1 ≤ (outcomes es).length := by
          simpa using hlen
        have key := ih k
          { s with
            currentStats := countResult success s.currentStats
            run := some { r with requestsProcessed := a + b + 1 } }
          { r with requestsProcessed := a + b + 1 }
          (a + (if success then 1 else 0)) (b + (if success then 0 else 1))
          rfl hret hctx (by cases success <;> simp <;> omega) (by cases success <;> simp <;> omega)
          (by rw [hcount]; cases success <;> simp <;> omega)
          (by rw [hcount]) (by rw [hcount])
          (by cases success <;> simp <;> omega)
          (by push_cast at hR ⊢; cases success <;> simp <;> omega) hmax hlen2
        obtain ⟨k1, k2, k3⟩ := key
        refine ⟨?_, ?_, ?_⟩
        · rw [k1]
        · rw [k2]
        · rw [k3, hcount]
          cases success <;> simp [List.take_succ_cons, List.count_cons] <;> omega
    | closed =>
      have hready : eventReady r s Event.closed = false := by simp [eventReady, hctx]
      have hloop : resultLoop (Event.closed :: es) s = resultLoop es s := by
        simp only [resultLoop, hrun, hret, hready, Bool.false_eq_true, if_false]
      rw [hloop, outcomes_closed] at *
      exact ih n s r a b hrun hret hctx ha hb hS hA hB hp hR hmax hlen
    | tick =>
      have hloop : resultLoop (Event.tick :: es) s = resultLoop es s := by
        simp only [resultLoop, hrun, hret, eventReady, loopBody, if_true, Bool.false_eq_true,
          if_false]
      rw [hloop, outcomes_tick] at *
      exact ih n s r a b hrun hret hctx ha hb hS hA hB hp hR hmax hlen
    | ctxDone =>
      have hready : eventReady r s Event.ctxDone = false := by simp [eventReady, hctx]
      have hloop : resultLoop (Event.ctxDone :: es) s = resultLoop es s := by
        simp only [resultLoop, hrun, hret, hready, Bool.false_eq_true, if_false]
      rw [hloop, outcomes_ctxDone] at *
      exact ih n s r a b hrun hret hctx ha hb hS hA hB hp hR hmax hlen

/-! ## Budget conservation of a bounded run -/

/-- C1. A call of `startStressTest` with `Requests = R > 0` from an idle state,
whose context nobody cancels from outside, on any sequence of events that
delivers at least `R` results: the call returns and runs its deferred function,
and afterwards the running flag is false, `Total` is `R`, `Sent` is exactly `R`,
`Success` and `Failed` are the numbers of successful and failed results among
the first `R` results received, and the stored config is reset. The worker
count enters only through the results the workers deliver, which are the
`events` here, so the statement holds for every `Threads`. -/
theorem startStressTest_bounded_terminal (ctx : Nat) (config : CurlRequest)
    (events : List Event) (s : System)
    (hidle : s.isProcessRunning = false) (hctx : ctx ∉ s.cancelled)
    (hR : 0 < config.Requests) (hmax : config.Requests ≤ maxInt)
    (hres : config.Requests.toNat ≤ (outcomes events).length) :
    (startStressTest ctx config events s).1 = RunOutcome.terminated ∧
    handleStatus (startStressTest ctx config events s).2 = false ∧
    (startStressTest ctx config events s).2.currentStats =
      ⟨TotalValue.count config.Requests, config.Requests,
       (((outcomes events).take config.Requests.toNat).count true : Nat),
       (((outcomes events).take config.Requests.toNat).count false : Nat)⟩ ∧
    (startStressTest ctx config events s).2.currentConfig = CurlRequest.zero ∧
    (startStressTest ctx config events s).2.run = none := by
  obtain ⟨n, hn⟩ : ∃ n : Nat, config.Requests.toNat = n + 1 :=
    ⟨config.Requests.toNat - 1, by omega⟩
  have hne : config.Requests ≠ 0 := by omega
  have hentry : startStressTestEntry ctx config s =
      some { s with
        isProcessRunning := true
        currentConfig := config
        currentStats := initialStats config
        run := some ⟨ctx, config, 0, false⟩ } := by
    simp [startStressTestEntry, hidle]
  have key := resultLoop_budget events n
    { s with
      isProcessRunning := true
      currentConfig := config
      currentStats := initialStats config
      run := some ⟨ctx, config, 0, false⟩ }
    ⟨ctx, config, 0, false⟩ 0 0 rfl rfl hctx (le_refl 0) (le_refl 0)
    (by simp [initialStats, hne]) (by simp [initialStats, hne]) (by simp [initialStats, hne])
    (by simp) (by simp only []; omega) hmax (by omega)
  obtain ⟨k1, k2, k3⟩ := key
  have hcall : startStressTest ctx config events s =
      (RunOutcome.terminated, deferredCleanup (resultLoop events
        { s with
          isProcessRunning := true
          currentConfig := config
          currentStats := initialStats config
          run := some ⟨ctx, config, 0, false⟩ })) := by
    simp only [startStressTest, hentry, k1, if_true]
  rw [hcall]
  refine ⟨rfl, rfl, ?_, rfl, rfl⟩
  show (resultLoop events _).currentStats = _
  rw [k3, hn]
  simp [initialStats, hne]

/-- C1, witness. Scenario A (ten requests, every probe succeeds) ends with
sent 10, success 10, failed 0; scenario D (nine requests, every third probe
fails) ends with sent 9, success 6, failed 3; both report `running = false`. -/
theorem startStressTest_bounded_terminal_witness :
    (handleStatus
        (startStressTest 0 scenarioA (List.replicate 10 (Event.result true))
          System.initial).2 = false ∧
      (startStressTest 0 scenarioA (List.replicate 10 (Event.result true))
          System.initial).2.currentStats = ⟨TotalValue.count 10, 10, 10, 0⟩) ∧
    (handleStatus (startStressTest 0 scenarioD scenarioDEvents System.initial).2 = false ∧
      (startStressTest 0 scenarioD scenarioDEvents System.initial).2.currentStats =
        ⟨TotalValue.count 9, 9, 6, 3⟩) := by
  have hA := startStressTest_bounded_terminal 0 scenarioA
    (List.replicate 10 (Event.result true)) System.initial
    (by decide) (by decide) (by decide) (by decide) (by decide)
  have hD := startStressTest_bounded_terminal 0 scenarioD scenarioDEvents System.initial
    (by decide) (by decide) (by decide) (by decide) (by decide)
  exact ⟨⟨hA.2.1, hA.2.2.1.trans (by decide)⟩, ⟨hD.2.1, hD.2.2.1.trans (by decide)⟩⟩

/-! ## How one action changes the counters -/

theorem step_currentStats_cases (s : System) (a : Action) :
    (step s a).currentStats = s.currentStats ∨
    (∃ config, (step s a).currentStats = initialStats config) ∨
    (∃ success, (step s a).currentStats = countResult success s.currentStats) := by
  cases a with
  | start body =>
    left
    cases body with
    | none => rfl
    | some req =>
      simp only [step, handleStart]
      split <;> rfl
  | enter i =>
    simp only [step]
    split
    · left; rfl
    · rename_i ctx config _
      cases hrun : s.isProcessRunning with
      | true =>
        left
        simp [startStressTestEntry, hrun]
      | false =>
        right; left
        exact ⟨config, by simp [startStressTestEntry, hrun]⟩
  | select e =>
    simp only [step]
    split
    · left; rfl
    · rename_i r _
      split
      · left; rfl
      · split
        · cases e with
          | result success =>
            right; right
            refine ⟨success, ?_⟩
            simp only [loopBody]
            split
            · simp [invokeCancelFunc_currentStats]
            · rfl
          | closed => left; rfl
          | tick => left; rfl
          | ctxDone => left; rfl
        · left; rfl
  | cleanup =>
    left
    simp only [step]
    split
    · rfl
    · split <;> rfl
  | stop =>
    left
    simp only [step, handleStop]
    split
    · rfl
    · exact invokeCancelFunc_currentStats s

theorem countResult_goConsistent (success : Bool) (st : Stats)
    (h : st.Sent = goAdd st.Success st.Failed) :
    (countResult success st).Sent =
      goAdd (countResult success st).Success (countResult success st).Failed := by
  cases success
  · simp only [countResult, Bool.false_eq_true, if_false, h]
    exact goInc_goAdd_right _ _
  · simp only [countResult, if_true, h]
    exact goInc_goAdd_left _ _

theorem initialStats_counters (config : CurlRequest) :
    (initialStats config).Sent = 0 ∧ (initialStats config).Success = 0 ∧
    (initialStats config).Failed = 0 := by
  unfold initialStats
  split <;> exact ⟨rfl, rfl, rfl⟩

theorem step_goConsistent (s : System) (a : Action)
    (h : s.currentStats.Sent = goAdd s.currentStats.Success s.currentStats.Failed) :
    (step s a).currentStats.Sent =
      goAdd (step s a).currentStats.Success (step s a).currentStats.Failed := by
  rcases step_currentStats_cases s a with h1 | ⟨config, h1⟩ | ⟨success, h1⟩
  · rw [h1]; exact h
  · rw [h1]
    obtain ⟨e1, e2, e3⟩ := initialStats_counters config
    rw [e1, e2, e3]
    decide
  · rw [h1]; exact countResult_goConsistent success _ h

theorem exec_goConsistent (acts : List Action) :
    ∀ s : System, s.currentStats.Sent = goAdd s.currentStats.Success s.currentStats.Failed →
      (exec s acts).currentStats.Sent =
        goAdd (exec s acts).currentStats.Success (exec s acts).currentStats.Failed := by
  induction acts with
  | nil => intro s h; exact h
  | cons a as ih =>
    intro s h
    exact ih (step s a) (step_goConsistent s a h)

theorem step_countersExact (s : System) (a : Action) (n : Int) (hn : n < maxInt)
    (h : CountersExact n s.currentStats) : CountersExact (n + 1) (step s a).currentStats := by
  obtain ⟨h1, h2, h3, h4⟩ := h
  rcases step_currentStats_cases s a with e | ⟨config, e⟩ | ⟨success, e⟩
  · rw [e]; exact ⟨h1, h2, by omega, h4⟩
  · rw [e]
    obtain ⟨e1, e2, e3⟩ := initialStats_counters config
    refine ⟨by omega, by omega, by omega, by omega⟩
  · rw [e]
    have hst : s.currentStats =
        ⟨s.currentStats.Total, s.currentStats.Success + s.currentStats.Failed,
          s.currentStats.Success, s.currentStats.Failed⟩ := by
      rw [← h4]
    rw [hst, countResult_exact success _ _ _ h1 h2 (by omega)]
    cases success <;> simp [CountersExact] <;> omega

theorem exec_countersExact (acts : List Action) :
    ∀ (s : System) (n : Int), n + acts.length ≤ maxInt → CountersExact n s.currentStats →
      CountersExact (n + acts.length) (exec s acts).currentStats := by
  induction acts with
  | nil => intro s n _ h; simpa [exec] using h
  | cons a as ih =>
    intro s n hlen h
    simp only [List.length_cons, Nat.cast_add, Nat.cast_one] at hlen ⊢
    have h1 := step_countersExact s a n (by omega) h
    have h2 := ih (step s a) (n + 1) (by omega) h1
    have e : n + ((as.length : Int) + 1) = n + 1 + as.length := by omega
    rw [e]
    exact h2

/-- C3. `Sent = Success + Failed` in every reachable state of the controller.
The Go expression `Success + Failed` equals `Sent` after any sequence of
actions (calls of `handleStart`, run entries, iterations of the result loop,
deferred cleanups, calls of `handleStop`), and every single action preserves
it; as an equation between integers it holds after any sequence of fewer than
2^63 actions, the number a counter needs to overflow. -/
theorem sent_eq_success_add_failed (acts : List Action) :
    (exec System.initial acts).currentStats.Sent =
      goAdd (exec System.initial acts).currentStats.Success
        (exec System.initial acts).currentStats.Failed ∧
    (∀ (s : System) (a : Action),
      s.currentStats.Sent = goAdd s.currentStats.Success s.currentStats.Failed →
      (step s a).currentStats.Sent =
        goAdd (step s a).currentStats.Success (step s a).currentStats.Failed) ∧
    ((acts.length : Int) ≤ maxInt →
      (exec System.initial acts).currentStats.Sent =
        (exec System.initial acts).currentStats.Success +
          (exec System.initial acts).currentStats.Failed) := by
  refine ⟨exec_goConsistent acts System.initial (by decide), step_goConsistent, ?_⟩
  intro hlen
  have h := exec_countersExact acts System.initial 0 (by omega)
    ⟨by decide, by decide, by decide, by decide⟩
  exact h.2.2.2

/-- C3, witness. After the actions of `scenarioTwoActions` the counters are
2 = 1 + 1. -/
theorem sent_eq_success_add_failed_witness :
    (exec System.initial scenarioTwoActions).currentStats.Sent =
        (exec System.initial scenarioTwoActions).currentStats.Success +
          (exec System.initial scenarioTwoActions).currentStats.Failed ∧
    (exec System.initial scenarioTwoActions).currentStats.Success = 1 :=
  ⟨(sent_eq_success_add_failed scenarioTwoActions).2.2 (by decide), by decide⟩

/-! ## The budget invariant -/

theorem countResult_Sent (success : Bool) (st : Stats) :
    (countResult success st).Sent = goInc st.Sent := by
  cases success <;> rfl

theorem countResult_Total (success : Bool) (st : Stats) :
    (countResult success st).Total = st.Total := by
  cases success <;> rfl

theorem initialStats_Total_count (config : CurlRequest) (R : Int)
    (h : (initialStats config).Total = TotalValue.count R) : config.Requests = R := by
  unfold initialStats at h
  split at h
  · simp at h
  · simpa using h

theorem initialStats_Total_of_ne (config : CurlRequest) (h : config.Requests ≠ 0) :
    (initialStats config).Total = TotalValue.count config.Requests := by
  simp [initialStats, h]

theorem budgetInv_initial : BudgetInv System.initial := by
  refine ⟨?_, ?_, ?_⟩
  · intro r h
    simp [System.initial] at h
  · intro R h
    simp [System.initial] at h
  · intro p h
    simp [System.initial] at h

theorem budgetInv_entry (ctx : Nat) (config : CurlRequest) (s : System)
    (hmax : config.Requests ≤ maxInt) (hsp : ∀ p ∈ s.spawned, p.2.Requests ≤ maxInt) :
    BudgetInv { s with
      isProcessRunning := true
      currentConfig := config
      currentStats := initialStats config
      run := some ⟨ctx, config, 0, false⟩ } := by
  obtain ⟨e1, _, _⟩ := initialStats_counters config
  refine ⟨?_, ?_, hsp⟩
  · intro r h
    simp only [Option.some.injEq] at h
    subst h
    refine ⟨rfl, hmax, ?_⟩
    intro hpos
    constructor
    · show (initialStats config).Sent = 0
      exact e1
    · intro _
      show (initialStats config).Sent < config.Requests
      rw [e1]
      exact hpos
  · intro R h hpos
    simp only [] at h ⊢
    have := initialStats_Total_count config R h
    rw [e1]
    omega

theorem budgetInv_result (s : System) (r : Run) (success : Bool) (h : BudgetInv s)
    (hrun : s.run = some r) (hret : r.returned = false) :
    BudgetInv (loopBody r (Event.result success) s) := by
  obtain ⟨i1, i2, i3⟩ := h
  obtain ⟨t1, t2, t3⟩ := i1 r hrun
  have hstats : (loopBody r (Event.result success) s).currentStats =
      countResult success s.currentStats := by
    simp only [loopBody]
    split
    · simp [invokeCancelFunc_currentStats]
    · rfl
  have hsp : (loopBody r (Event.result success) s).spawned = s.spawned := by
    simp only [loopBody]
    split
    · simp [invokeCancelFunc_spawned]
    · rfl
  have hrun2 : (loopBody r (Event.result success) s).run =
      some { r with
        requestsProcessed := goInc r.requestsProcessed
        returned := decide (0 < r.config.Requests ∧
          r.config.Requests ≤ goInc r.requestsProcessed) } := by
    simp only [loopBody]
    split
    · rename_i hc
      simp [hc]
    · rename_i hc
      simp only [hc, decide_False]
      rw [← hret]
  have hpos : 0 < r.config.Requests →
      0 ≤ s.currentStats.Sent ∧ s.currentStats.Sent < r.config.Requests ∧
      goInc s.currentStats.Sent = s.currentStats.Sent + 1 := by
    intro hp
    have hT : s.currentStats.Total = TotalValue.count r.config.Requests := by
      rw [t1]; exact initialStats_Total_of_ne _ (by omega)
    obtain ⟨b1, _, _⟩ := i2 _ hT hp
    obtain ⟨_, c2⟩ := t3 hp
    have c3 := c2 hret
    exact ⟨b1, c3, goInc_eq b1 (by omega)⟩
  refine ⟨?_, ?_, ?_⟩
  · intro r2 h2
    rw [hrun2] at h2
    simp only [Option.some.injEq] at h2
    subst h2
    rw [hstats, countResult_Total, countResult_Sent]
    refine ⟨t1, t2, ?_⟩
    intro hp
    obtain ⟨p1, p2, p3⟩ := hpos hp
    obtain ⟨c1, _⟩ := t3 hp
    simp only []
    refine ⟨by rw [c1], ?_⟩
    intro hnot
    simp only [decide_eq_false_iff_not] at hnot
    rw [← c1, p3] at hnot
    rw [p3]
    omega
  · intro R hT hp
    rw [hstats, countResult_Total] at hT
    rw [hstats, countResult_Sent]
    have hR : r.config.Requests = R := by
      rw [t1] at hT
      exact initialStats_Total_count _ _ hT
    obtain ⟨p1, p2, p3⟩ := hpos (by omega)
    rw [p3]
    omega
  · rw [hsp]; exact i3

theorem step_budgetInv (s : System) (a : Action) (hwf : a.WF = true) (h : BudgetInv s) :
    BudgetInv (step s a) := by
  cases a with
  | start body =>
    cases body with
    | none => exact h
    | some req =>
      simp only [step, handleStart]
      split
      · exact h
      · obtain ⟨i1, i2, i3⟩ := h
        refine ⟨i1, i2, ?_⟩
        intro p hp
        simp only [List.mem_append, List.mem_singleton] at hp
        rcases hp with hp | hp
        · exact i3 p hp
        · subst hp
          simp only [Action.WF, decide_eq_true_eq] at hwf
          exact hwf.2
  | enter i =>
    obtain ⟨i1, i2, i3⟩ := h
    simp only [step]
    split
    · exact ⟨i1, i2, i3⟩
    · rename_i ctx config hget
      have hmem := List.get?_mem hget
      have hsub : ∀ p ∈ s.spawned.eraseIdx i, p.2.Requests ≤ maxInt :=
        fun p hp => i3 p (List.mem_of_mem_eraseIdx hp)
      cases hrun : s.isProcessRunning with
      | true =>
        simp only [startStressTestEntry, hrun, if_true]
        exact ⟨i1, i2, hsub⟩
      | false =>
        simp only [startStressTestEntry, hrun, Bool.false_eq_true, if_false]
        exact budgetInv_entry ctx config { s with spawned := s.spawned.eraseIdx i }
          (i3 _ hmem) hsub
  | select e =>
    simp only [step]
    split
    · exact h
    · rename_i r hrun
      split
      · exact h
      · rename_i hret
        simp only [Bool.not_eq_true] at hret
        split
        · cases e with
          | result success => exact budgetInv_result s r success h hrun hret
          | closed =>
            obtain ⟨i1, i2, i3⟩ := h
            obtain ⟨t1, t2, t3⟩ := i1 r hrun
            refine ⟨?_, i2, i3⟩
            intro r2 h2
            simp only [loopBody, Option.some.injEq] at h2
            subst h2
            refine ⟨t1, t2, ?_⟩
            intro hp
            exact ⟨(t3 hp).1, fun hc => by simp at hc⟩
          | tick => exact h
          | ctxDone => exact h
        · exact h
  | cleanup =>
    simp only [step]
    split
    · exact h
    · split
      · obtain ⟨i1, i2, i3⟩ := h
        refine ⟨?_, i2, i3⟩
        intro r h2
        simp [deferredCleanup] at h2
      · exact h
  | stop =>
    simp only [step, handleStop]
    split
    · exact h
    · obtain ⟨i1, i2, i3⟩ := h
      refine ⟨?_, ?_, ?_⟩
      · intro r hr
        rw [invokeCancelFunc_run] at hr
        rw [invokeCancelFunc_currentStats]
        exact i1 r hr
      · intro R
        rw [invokeCancelFunc_currentStats]
        exact i2 R
      · rw [invokeCancelFunc_spawned]
        exact i3

theorem exec_budgetInv (acts : List Action) :
    ∀ s : System, (∀ a ∈ acts, a.WF = true) → BudgetInv s → BudgetInv (exec s acts) := by
  induction acts with
  | nil => intro s _ h; exact h
  | cons a as ih =>
    intro s hwf h
    exact ih (step s a) (fun b hb => hwf b (List.mem_cons_of_mem _ hb))
      (step_budgetInv s a (hwf a (List.mem_cons_self _ _)) h)

/-! ## `Sent` never exceeds a bounded `Total` -/

/-- C2. In every state the controller reaches from process start (through any
calls of `handleStart` with configs whose request count fits a Go `int`, run
entries, loop iterations, cleanups and stops): while a run with
`Requests = R > 0` is active, `Total` is `R`, the loop counter
`requestsProcessed` equals `Sent`, `Sent ≤ R`, the loop has returned as soon as
`Sent = R`, and after it has returned no further result is counted; and
whenever `Total` is a positive count `R`, `Sent ≤ R`. -/
theorem sent_le_requests (acts : List Action) (hwf : ∀ a ∈ acts, a.WF = true) :
    (∀ r, (exec System.initial acts).run = some r → 0 < r.config.Requests →
      (exec System.initial acts).currentStats.Total = TotalValue.count r.config.Requests ∧
      r.requestsProcessed = (exec System.initial acts).currentStats.Sent ∧
      (exec System.initial acts).currentStats.Sent ≤ r.config.Requests ∧
      ((exec System.initial acts).currentStats.Sent = r.config.Requests →
        r.returned = true) ∧
      (r.returned = true →
        ∀ e, step (exec System.initial acts) (Action.select e) = exec System.initial acts)) ∧
    (∀ R, (exec System.initial acts).currentStats.Total = TotalValue.count R → 0 < R →
      (exec System.initial acts).currentStats.Sent ≤ R) := by
  obtain ⟨i1, i2, _⟩ := exec_budgetInv acts System.initial hwf budgetInv_initial
  constructor
  · intro r hrun hpos
    obtain ⟨t1, t2, t3⟩ := i1 r hrun
    obtain ⟨c1, c2⟩ := t3 hpos
    have hT : (exec System.initial acts).currentStats.Total =
        TotalValue.count r.config.Requests := by
      rw [t1]; exact initialStats_Total_of_ne _ (by omega)
    obtain ⟨b1, b2, _⟩ := i2 _ hT hpos
    refine ⟨hT, c1.symm, b2, ?_, ?_⟩
    · intro heq
      cases hret : r.returned with
      | true => rfl
      | false =>
        have := c2 hret
        omega
    · intro hret e
      simp [step, hrun, hret]
  · intro R hT hpos
    exact (i2 R hT hpos).2.1

/-- C2, witness. A run of two requests that is offered a third result:
`Sent` stays 2. -/
theorem sent_le_requests_witness :
    (exec System.initial scenarioTwoActions).currentStats.Sent ≤ 2 ∧
    (exec System.initial scenarioTwoActions).currentStats.Sent = 2 :=
  ⟨(sent_le_requests scenarioTwoActions (by decide)).2 2 (by decide) (by decide), by decide⟩

/-! ## Start while a run is in progress -/

/-- C4. In every state whose running flag is set and for every config,
`handleStart` answers 409 (a run is in progress) and a direct call of
`startStressTest` is refused at its prologue; both leave the whole state (the
running flag, the counters, the stored config and the stored cancel function
included) exactly as it was. -/
theorem start_while_running_rejected (s : System) (config : CurlRequest) (ctx : Nat)
    (events : List Event) (hrun : s.isProcessRunning = true) :
    handleStart (some config) s = (Response.conflict, s) ∧
    startStressTestEntry ctx config s = none ∧
    startStressTest ctx config events s = (RunOutcome.rejected, s) ∧
    step s (Action.start (some config)) = s := by
  have h1 : handleStart (some config) s = (Response.conflict, s) := by
    simp [handleStart, hrun]
  have h2 : startStressTestEntry ctx config s = none := by
    simp [startStressTestEntry, hrun]
  refine ⟨h1, h2, ?_, ?_⟩
  · simp [startStressTest, h2]
  · simp [step, h1]

/-- C4, witness. Scenario C: a Start during the unbounded run of scenario B,
after three results, is refused and the counters are still 3, 2, 1. -/
theorem start_while_running_rejected_witness :
    handleStart (some scenarioA)
        (exec (runningState scenarioB)
          [Action.select (Event.result true), Action.select (Event.result false),
           Action.select (Event.result true)]) =
      (Response.conflict,
        exec (runningState scenarioB)
          [Action.select (Event.result true), Action.select (Event.result false),
           Action.select (Event.result true)]) ∧
    (handleStart (some scenarioA)
        (exec (runningState scenarioB)
          [Action.select (Event.result true), Action.select (Event.result false),
           Action.select (Event.result true)])).2.currentStats =
      ⟨TotalValue.infinity, 3, 2, 1⟩ :=
  ⟨(start_while_running_rejected _ scenarioA 7 [] (by decide)).1, by decide⟩

/-! ## Two Starts in a row -/

/-- C5. Two calls of `handleStart` made before the goroutine of the first one
reaches the prologue of `startStressTest` both answer 200 and the second one
overwrites `cancelFunc`. Once the goroutines have reached the prologue, the run
in progress is the one of the first call (context 0) while `cancelFunc` is the
cancel function of context 1; `handleStop` then answers 200 but context 0 is
not cancelled, so `results` is never closed for the run in progress. -/
theorem start_race_stale_cancelFunc :
    (handleStart (some scenarioB) System.initial).1 = Response.ok ∧
    (handleStart (some scenarioA) (handleStart (some scenarioB) System.initial).2).1 =
      Response.ok ∧
    (handleStart (some scenarioA) (handleStart (some scenarioB) System.initial).2).2.cancelFunc =
      some 1 ∧
    (exec System.initial raceActions).isProcessRunning = true ∧
    (exec System.initial raceActions).run = some ⟨0, scenarioB, 0, false⟩ ∧
    (exec System.initial raceActions).cancelFunc = some 1 ∧
    (handleStop (exec System.initial raceActions)).1 = Response.ok ∧
    (handleStop (exec System.initial raceActions)).2.cancelled = [1] ∧
    eventReady ⟨0, scenarioB, 0, false⟩ (handleStop (exec System.initial raceActions)).2
      Event.closed = false ∧
    ¬ (∀ (acts : List Action) (r : Run), (exec System.initial acts).run = some r →
        (exec System.initial acts).cancelFunc = some r.ctx) := by
  refine ⟨by decide, by decide, by decide, by decide, by decide, by decide, by decide,
    by decide, by decide, ?_⟩
  intro h
  have h1 := h raceActions ⟨0, scenarioB, 0, false⟩ (by decide)
  revert h1
  decide

/-! ## Stop -/

theorem invokeCancelFunc_idem (s : System) :
    invokeCancelFunc (invokeCancelFunc s) = invokeCancelFunc s := by
  unfold invokeCancelFunc cancelCtx
  cases h : s.cancelFunc with
  | none => simp [h]
  | some c => simp [h]

/-- C6, as the code has it. `handleStop` in a state whose running flag is
clear answers 404 and changes nothing. In a state whose running flag is set,
two calls in a row both answer 200: the flag is cleared by the deferred
function of the run only, not by `handleStop`. The first call invokes the
stored cancel function, the second changes nothing more, and neither touches
the running flag, the counters or the stored config. -/
theorem handleStop_idle_and_twice (s : System) :
    (s.isProcessRunning = false → handleStop s = (Response.notFound, s)) ∧
    (s.isProcessRunning = true →
      handleStop s = (Response.ok, invokeCancelFunc s) ∧
      handleStop (handleStop s).2 = (Response.ok, (handleStop s).2) ∧
      (handleStop s).2.isProcessRunning = true ∧
      (handleStop s).2.currentStats = s.currentStats ∧
      (handleStop s).2.currentConfig = s.currentConfig) := by
  constructor
  · intro h
    simp [handleStop, h]
  · intro h
    have h1 : handleStop s = (Response.ok, invokeCancelFunc s) := by
      simp [handleStop, h]
    have h2 : (invokeCancelFunc s).isProcessRunning = true := by
      rw [invokeCancelFunc_isProcessRunning]; exact h
    refine ⟨h1, ?_, ?_, ?_, ?_⟩
    · rw [h1]
      simp [handleStop, h2, invokeCancelFunc_idem]
    · rw [h1]; exact h2
    · rw [h1]; exact invokeCancelFunc_currentStats s
    · rw [h1]; exact invokeCancelFunc_currentConfig s

/-- C6, witness. Stop at process start answers 404; two Stops during the run
of scenario B both answer 200. -/
theorem handleStop_idle_and_twice_witness :
    handleStop System.initial = (Response.notFound, System.initial) ∧
    (handleStop (handleStop (runningState scenarioB)).2).1 = Response.ok :=
  ⟨(handleStop_idle_and_twice System.initial).1 (by decide),
   congrArg Prod.fst ((handleStop_idle_and_twice (runningState scenarioB)).2 (by decide)).2.1⟩

/-- C6, counterexample. During the run of scenario B the first Stop answers
200 and the second Stop, called right after it, answers 200 as well, not 404. -/
theorem handleStop_second_call_not_notFound :
    (runningState scenarioB).isProcessRunning = true ∧
    (handleStop (runningState scenarioB)).1 = Response.ok ∧
    (handleStop (handleStop (runningState scenarioB)).2).1 = Response.ok ∧
    (handleStop (handleStop (runningState scenarioB)).2).1 ≠ Response.notFound := by
  decide

/-! ## Start with a config the specification calls invalid -/

/-- C7, as the code has it. `handleStart` validates nothing: from every state
whose running flag is clear and for every config, it answers 200, stores the
cancel function of a fresh context and starts the goroutine of the run, leaving
the running flag, the counters and the stored config as they were; when that
goroutine reaches the prologue of `startStressTest` the running flag is set,
the config is stored and the counters are initialised. -/
theorem handleStart_idle_accepts_any_config (s : System) (config : CurlRequest)
    (hidle : s.isProcessRunning = false) :
    handleStart (some config) s =
      (Response.ok,
        { s with
          cancelFunc := some s.nextCtx
          nextCtx := s.nextCtx + 1
          spawned := s.spawned ++ [(s.nextCtx, config)] }) ∧
    (step (handleStart (some config) s).2 (Action.enter s.spawned.length)).isProcessRunning =
      true ∧
    (step (handleStart (some config) s).2 (Action.enter s.spawned.length)).currentConfig =
      config ∧
    (step (handleStart (some config) s).2 (Action.enter s.spawned.length)).currentStats =
      initialStats config ∧
    (step (handleStart (some config) s).2 (Action.enter s.spawned.length)).run =
      some ⟨s.nextCtx, config, 0, false⟩ := by
  have h1 : handleStart (some config) s =
      (Response.ok,
        { s with
          cancelFunc := some s.nextCtx
          nextCtx := s.nextCtx + 1
          spawned := s.spawned ++ [(s.nextCtx, config)] }) := by
    simp [handleStart, hidle]
  refine ⟨h1, ?_, ?_, ?_, ?_⟩ <;>
    simp [h1, step, startStressTestEntry, hidle]

/-- C7, witness. The config without worker, URL and method and with a negative
timeout is accepted at process start. -/
theorem handleStart_idle_accepts_any_config_witness :
    (handleStart (some invalidConfig) System.initial).1 = Response.ok ∧
    (step (handleStart (some invalidConfig) System.initial).2 (Action.enter 0)).isProcessRunning =
      true :=
  ⟨congrArg Prod.fst (handleStart_idle_accepts_any_config System.initial invalidConfig rfl).1,
   (handleStart_idle_accepts_any_config System.initial invalidConfig rfl).2.1⟩

/-- C7, counterexample. `invalidConfig` has no worker, a negative timeout, an
empty URL and an empty method; `handleStart` at process start answers 200 for
it, stores a cancel function and starts a goroutine, and the run it starts sets
the running flag and stores the config. -/
theorem handleStart_invalid_config_accepted :
    (invalidConfig.Threads < 1 ∧ invalidConfig.Timeout < 0 ∧ invalidConfig.URL = "" ∧
      invalidConfig.Method = "") ∧
    System.initial.isProcessRunning = false ∧
    (handleStart (some invalidConfig) System.initial).1 = Response.ok ∧
    (handleStart (some invalidConfig) System.initial).2.cancelFunc = some 0 ∧
    (handleStart (some invalidConfig) System.initial).2.spawned = [(0, invalidConfig)] ∧
    (runningState invalidConfig).isProcessRunning = true ∧
    (runningState invalidConfig).currentConfig = invalidConfig ∧
    (runningState invalidConfig).currentStats = ⟨TotalValue.count 5, 0, 0, 0⟩ := by
  decide

/-! ## The worker -/

/-- C8. One attempt of a worker, for every combination of "the probe returned
an error" and "the context is cancelled": a result is pushed on `results`
exactly when it is not the case that the probe failed while the context was
cancelled; in that case the worker returns without pushing, the result loop
receives nothing from the attempt and the counters stay as they are; and a
pushed result is a success exactly when the probe returned no error. -/
theorem workerAttempt_pushes_unless_cancelled (probeErr ctxErr : Bool) (failed : Int) :
    ((workerAttempt probeErr ctxErr failed).pushed.isSome = true ↔
      ¬ (probeErr = true ∧ ctxErr = true)) ∧
    (probeErr = true ∧ ctxErr = true →
      (workerAttempt probeErr ctxErr failed).pushed = none ∧
      (workerAttempt probeErr ctxErr failed).exits = true ∧
      ∀ s : System,
        exec s ((attemptEvents (workerAttempt probeErr ctxErr failed)).map Action.select) = s) ∧
    (∀ success, (workerAttempt probeErr ctxErr failed).pushed = some success →
      success = !probeErr) := by
  cases probeErr <;> cases ctxErr <;>
    simp [workerAttempt, attemptEvents, exec]

/-- C8, witness. A probe that fails while the context is cancelled leaves the
counters of a run in progress untouched; a probe that fails while the context
is live is counted as failed. -/
theorem workerAttempt_pushes_unless_cancelled_witness :
    (exec (runningState scenarioB)
      ((attemptEvents (workerAttempt true true 0)).map Action.select)).currentStats =
        ⟨TotalValue.infinity, 0, 0, 0⟩ ∧
    (exec (runningState scenarioB)
      ((attemptEvents (workerAttempt true false 0)).map Action.select)).currentStats =
        ⟨TotalValue.infinity, 1, 0, 1⟩ :=
  ⟨by
    rw [((workerAttempt_pushes_unless_cancelled true true 0).2.1 ⟨rfl, rfl⟩).2.2
      (runningState scenarioB)]
    decide, by decide⟩

/-! ## The feeder -/

theorem feederForever_all_sent (sel : Nat → SelectCase) :
    ∀ n j : Nat, (∀ i, j ≤ i → i < j + n → sel i = SelectCase.jobSent) →
      feederForever sel n j = (n, FeederEnd.looping) := by
  intro n
  induction n with
  | zero => intro j _; simp [feederForever]
  | succ n ih =>
    intro j h
    have hj : sel j = SelectCase.jobSent := h j (le_refl j) (by omega)
    simp only [feederForever, hj]
    rw [ih (j + 1) (fun i h1 h2 => h i (by omega) (by omega))]

theorem feederForever_returned (sel : Nat → SelectCase) :
    ∀ n j : Nat, (feederForever sel n j).2 = FeederEnd.returned →
      ∃ i, j ≤ i ∧ i < j + n ∧ sel i = SelectCase.ctxDone := by
  intro n
  induction n with
  | zero => intro j h; simp [feederForever] at h
  | succ n ih =>
    intro j h
    cases hj : sel j with
    | ctxDone => exact ⟨j, le_refl j, by omega, hj⟩
    | sendOnClosed => simp [feederForever, hj] at h
    | jobSent =>
      simp only [feederForever, hj] at h
      obtain ⟨i, h1, h2, h3⟩ := ih (j + 1) h
      exact ⟨i, by omega, by omega, h3⟩

theorem feederForever_aborted (sel : Nat → SelectCase) :
    ∀ n j : Nat, (feederForever sel n j).2 = FeederEnd.aborted →
      ∃ i, j ≤ i ∧ i < j + n ∧ sel i = SelectCase.sendOnClosed := by
  intro n
  induction n with
  | zero => intro j h; simp [feederForever] at h
  | succ n ih =>
    intro j h
    cases hj : sel j with
    | ctxDone => simp [feederForever, hj] at h
    | sendOnClosed => exact ⟨j, le_refl j, by omega, hj⟩
    | jobSent =>
      simp only [feederForever, hj] at h
      obtain ⟨i, h1, h2, h3⟩ := ih (j + 1) h
      exact ⟨i, by omega, by omega, h3⟩

theorem step_unboundedRunning (ctx : Nat) (config : CurlRequest) (cancelled : List Nat)
    (s : System) (a : Action) (hreq : config.Requests = 0) (hctx : ctx ∉ cancelled)
    (ha : a ≠ Action.stop) (h : UnboundedRunning ctx config cancelled s) :
    UnboundedRunning ctx config cancelled (step s a) := by
  obtain ⟨hflag, hcan, ⟨r, hrun, hrc, hcfg, hret⟩, hT⟩ := h
  cases a with
  | start body =>
    cases body with
    | none => exact ⟨hflag, hcan, ⟨r, hrun, hrc, hcfg, hret⟩, hT⟩
    | some req =>
      have : step s (Action.start (some req)) = s := by
        simp [step, handleStart, hflag]
      rw [this]
      exact ⟨hflag, hcan, ⟨r, hrun, hrc, hcfg, hret⟩, hT⟩
  | enter i =>
    simp only [step]
    split
    · exact ⟨hflag, hcan, ⟨r, hrun, hrc, hcfg, hret⟩, hT⟩
    · simp only [startStressTestEntry, hflag, if_true]
      exact ⟨rfl, hcan, ⟨r, hrun, hrc, hcfg, hret⟩, hT⟩
  | select e =>
    have hnot : r.ctx ∉ s.cancelled := by rw [hrc, hcan]; exact hctx
    cases e with
    | result success =>
      have hcond : ¬ (0 < r.config.Requests ∧ r.config.Requests ≤ goInc r.requestsProcessed) := by
        rw [hcfg, hreq]
        omega
      have hstep : step s (Action.select (Event.result success)) =
          { s with
            currentStats := countResult success s.currentStats
            run := some { r with requestsProcessed := goInc r.requestsProcessed } } := by
        simp [step, hrun, hret, eventReady, loopBody, hcond]
      rw [hstep]
      refine ⟨hflag, hcan, ⟨_, rfl, hrc, hcfg, hret⟩, ?_⟩
      show (countResult success s.currentStats).Total = TotalValue.infinity
      rw [countResult_Total]
      exact hT
    | closed =>
      have : step s (Action.select Event.closed) = s := by
        simp [step, hrun, hret, eventReady, hnot]
      rw [this]
      exact ⟨hflag, hcan, ⟨r, hrun, hrc, hcfg, hret⟩, hT⟩
    | tick =>
      have : step s (Action.select Event.tick) = s := by
        simp [step, hrun, hret, eventReady, loopBody]
      rw [this]
      exact ⟨hflag, hcan, ⟨r, hrun, hrc, hcfg, hret⟩, hT⟩
    | ctxDone =>
      have : step s (Action.select Event.ctxDone) = s := by
        simp [step, hrun, hret, eventReady, hnot]
      rw [this]
      exact ⟨hflag, hcan, ⟨r, hrun, hrc, hcfg, hret⟩, hT⟩
  | cleanup =>
    have : step s Action.cleanup = s := by
      simp [step, hrun, hret]
    rw [this]
    exact ⟨hflag, hcan, ⟨r, hrun, hrc, hcfg, hret⟩, hT⟩
  | stop => exact absurd rfl ha

theorem exec_unboundedRunning (ctx : Nat) (config : CurlRequest) (cancelled : List Nat)
    (hreq : config.Requests = 0) (hctx : ctx ∉ cancelled) (acts : List Action) :
    ∀ s : System, (∀ a ∈ acts, a ≠ Action.stop) → UnboundedRunning ctx config cancelled s →
      UnboundedRunning ctx config cancelled (exec s acts) := by
  induction acts with
  | nil => intro s _ h; exact h
  | cons a as ih =>
    intro s hns h
    exact ih (step s a) (fun b hb => hns b (List.mem_cons_of_mem _ hb))
      (step_unboundedRunning ctx config cancelled s a hreq hctx
        (hns a (List.mem_cons_self _ _)) h)

theorem resultLoop_eq_exec (events : List Event) :
    ∀ s : System, resultLoop events s = exec s (events.map Action.select) := by
  induction events with
  | nil => intro s; rfl
  | cons e es ih =>
    intro s
    have hfix : ∀ t : System, (∀ e2, step t (Action.select e2) = t) →
        ∀ l : List Event, exec t (l.map Action.select) = t := by
      intro t ht l
      induction l with
      | nil => rfl
      | cons x xs ihx =>
        simp only [List.map_cons, exec, List.foldl_cons, ht]
        exact ihx
    cases hrun : s.run with
    | none =>
      have ht : ∀ e2, step s (Action.select e2) = s := by
        intro e2; simp [step, hrun]
      rw [hfix s ht]
      simp [resultLoop, hrun]
    | some r =>
      cases hret : r.returned with
      | true =>
        have ht : ∀ e2, step s (Action.select e2) = s := by
          intro e2; simp [step, hrun, hret]
        rw [hfix s ht]
        simp [resultLoop, hrun, hret]
      | false =>
        cases hready : eventReady r s e with
        | true =>
          have hs : step s (Action.select e) = loopBody r e s := by
            simp [step, hrun, hret, hready]
          simp only [List.map_cons, exec, List.foldl_cons, hs]
          simp only [resultLoop, hrun, hret, hready, if_true, Bool.false_eq_true, if_false]
          exact ih _
        | false =>
          have hs : step s (Action.select e) = s := by
            simp [step, hrun, hret, hready]
          simp only [List.map_cons, exec, List.foldl_cons, hs]
          simp only [resultLoop, hrun, hret, hready, Bool.false_eq_true, if_false]
          exact ih _

/-- C9. An unbounded run (`Requests = 0`) entered from an idle state, with a
context nobody has cancelled, followed by any finite sequence of actions that
contains no call of `handleStop` (results, ticks, further Starts, goroutines
reaching the prologue): the running flag stays set, no context is cancelled,
the run is still inside its result loop (so the branch for a reached budget
was never taken), and `Total` is still the infinity marker; a direct call of
`startStressTest` is still looping after any list of events; a feeder whose
selects all send has sent `n` job signals after `n` iterations, for every `n`,
and is still in its loop; and the feeder leaves its loop only from a select
that saw the context cancelled (it returns) or that took the send on `jobs`
already closed (it aborts), both of which need a cancellation. -/
theorem unbounded_run_keeps_running (ctx : Nat) (config : CurlRequest) (s : System)
    (acts : List Action) (events : List Event) (sel : Nat → SelectCase) (n : Nat)
    (hidle : s.isProcessRunning = false) (hctx : ctx ∉ s.cancelled)
    (hreq : config.Requests = 0)
    (hnostop : ∀ a ∈ acts, a ≠ Action.stop)
    (hsel : ∀ j, j < n → sel j = SelectCase.jobSent) :
    (∃ s1, startStressTestEntry ctx config s = some s1 ∧
      (exec s1 acts).isProcessRunning = true ∧
      (exec s1 acts).cancelled = s.cancelled ∧
      (∃ r, (exec s1 acts).run = some r ∧ r.ctx = ctx ∧ r.config = config ∧
        r.returned = false) ∧
      (exec s1 acts).currentStats.Total = TotalValue.infinity) ∧
    (startStressTest ctx config events s).1 = RunOutcome.looping ∧
    (startStressTest ctx config events s).2.isProcessRunning = true ∧
    feeder config sel n = (n, FeederEnd.looping) ∧
    (∀ (sel2 : Nat → SelectCase) (m : Nat),
      (feeder config sel2 m).2 = FeederEnd.returned →
      ∃ j, j < m ∧ sel2 j = SelectCase.ctxDone) ∧
    (∀ (sel2 : Nat → SelectCase) (m : Nat),
      (feeder config sel2 m).2 = FeederEnd.aborted →
      ∃ j, j < m ∧ sel2 j = SelectCase.sendOnClosed) := by
  have hentry : startStressTestEntry ctx config s =
      some { s with
        isProcessRunning := true
        currentConfig := config
        currentStats := initialStats config
        run := some ⟨ctx, config, 0, false⟩ } := by
    simp [startStressTestEntry, hidle]
  have hstart : UnboundedRunning ctx config s.cancelled
      { s with
        isProcessRunning := true
        currentConfig := config
        currentStats := initialStats config
        run := some ⟨ctx, config, 0, false⟩ } :=
    ⟨rfl, rfl, ⟨_, rfl, rfl, rfl, rfl⟩, by simp [initialStats, hreq]⟩
  refine ⟨⟨_, hentry, exec_unboundedRunning ctx config s.cancelled hreq hctx acts _ hnostop hstart⟩,
    ?_, ?_, ?_, ?_, ?_⟩
  · have h := exec_unboundedRunning ctx config s.cancelled hreq hctx
      (events.map Action.select) _ (by simp) hstart
    obtain ⟨_, _, ⟨r, hr, _, _, hret⟩, _⟩ := h
    rw [← resultLoop_eq_exec] at hr
    simp [startStressTest, hentry, hr, hret]
  · have h := exec_unboundedRunning ctx config s.cancelled hreq hctx
      (events.map Action.select) _ (by simp) hstart
    obtain ⟨hflag, _, ⟨r, hr, _, _, hret⟩, _⟩ := h
    rw [← resultLoop_eq_exec] at hr hflag
    simp [startStressTest, hentry, hr, hret, hflag]
  · have h := feederForever_all_sent sel n 0 (fun i _ h2 => hsel i (by omega))
    simp [feeder, hreq, h]
  · intro sel2 m hm
    simp only [feeder, hreq, if_true] at hm
    obtain ⟨i, _, h2, h3⟩ := feederForever_returned sel2 m 0 hm
    exact ⟨i, by omega, h3⟩
  · intro sel2 m hm
    simp only [feeder, hreq, if_true] at hm
    obtain ⟨i, _, h2, h3⟩ := feederForever_aborted sel2 m 0 hm
    exact ⟨i, by omega, h3⟩

/-- C9, witness. The unbounded run of scenario B, after results, a tick, a
second Start, and attempts to see `results` closed or to run the deferred
function, is still running with `Total` infinite and three results counted;
the feeder has sent five job signals after five iterations. -/
theorem unbounded_run_keeps_running_witness :
    (exec (runningState scenarioB)
      [Action.select (Event.result true), Action.select Event.tick,
       Action.select Event.closed, Action.start (some scenarioA), Action.enter 0,
       Action.select (Event.result false), Action.cleanup,
       Action.select (Event.result true)]).isProcessRunning = true ∧
    (startStressTest 0 scenarioB
      [Event.result true, Event.tick, Event.closed, Event.result false]
      System.initial).1 = RunOutcome.looping ∧
    feeder scenarioB (fun _ => SelectCase.jobSent) 5 = (5, FeederEnd.looping) := by
  have h := unbounded_run_keeps_running 0 scenarioB System.initial
    [Action.select (Event.result true), Action.select Event.tick,
      Action.select Event.closed, Action.start (some scenarioA), Action.enter 0,
      Action.select (Event.result false), Action.cleanup,
      Action.select (Event.result true)]
    [Event.result true, Event.tick, Event.closed, Event.result false]
    (fun _ => SelectCase.jobSent) 5 (by decide) (by decide) (by decide) (by decide)
    (fun _ _ => rfl)
  exact ⟨by decide, h.2.1, h.2.2.2.1⟩

end GOIC
